import Mathlib

/-!
# PCF8563 real-time-clock driver (`main/hal/rtc/hal_rtc.hpp`)

A shallow embedding of the driver class `PCF8563::PCF8563` and the properties of its
register protocol: the BCD codec, the time block read and written by `getTime` / `setTime`,
and the countdown timer programmed by `setAlarmIRQ`.

Conventions of the embedding.

* `uint8_t` is `Fin 256`.  C evaluates every byte expression in `int` and truncates when
  the result is stored in a `uint8_t`; the embedding does the same: the operands are
  lifted to `Int`, the arithmetic operators are those of `Int`, the bitwise operators
  `&`, `|`, `~` act on the 32-bit two's complement pattern (`int_and`, `int_or`,
  `int_not`), and `toU8` is the truncation.
* `int` is `Int`; the one place where the driver mixes `int` with `std::size_t`
  (`setAlarmIRQ`) converts explicitly with `toSizeT` / `toInt` (32-bit target, ESP32).
* The I2C and GPIO functions of ESP-IDF are external.  Every call the driver makes is
  appended to the field `calls` of the controller state, and the result of a call is given
  by a `Transport`: an arbitrary function of the calls made so far and of the present call.
  The timeout argument is `portMAX_DELAY` at every call site and is not recorded.
* `ESP_LOGD` has no effect on the state and is left out.
-/

set_option linter.dupNamespace false

namespace PCF8563

/-! ## Machine types -/

/-- An 8-bit unsigned byte. -/
abbrev uint8_t := Fin 256

/-- Status code of ESP-IDF calls (`esp_err_t` is a C `int`). -/
abbrev esp_err_t := Int

/-- Value of the ESP-IDF constant `ESP_OK`. -/
def ESP_OK : esp_err_t := 0

/-- Conversion of a C `int` to `uint8_t`: reduction modulo 256. -/
def toU8 (x : Int) : uint8_t := ⟨(x % 256).toNat, by omega⟩

/-- Conversion of a C `int` to `std::size_t` (32 bits): reduction modulo 2^32. -/
def toSizeT (x : Int) : Nat := (x % 4294967296).toNat

/-- Conversion to a 32-bit C `int`: two's complement wrap-around into [-2^31, 2^31). -/
def toInt (x : Int) : Int := (x + 2147483648) % 4294967296 - 2147483648

/-- Two's complement bit pattern of a 32-bit C `int`. -/
def bits32 (x : Int) : Nat := (x % 4294967296).toNat

/-- C operator `&` on two `int` operands. -/
def int_and (x y : Int) : Int := toInt ((bits32 x &&& bits32 y : Nat) : Int)

/-- C operator `|` on two `int` operands. -/
def int_or (x y : Int) : Int := toInt ((bits32 x ||| bits32 y : Nat) : Int)

/-- C operator `~` on an `int` operand: every one of the 32 bits is inverted. -/
def int_not (x : Int) : Int := toInt ((bits32 x ^^^ 4294967295 : Nat) : Int)

/-! ## Data model -/

/-- Configuration record `Config_t` with the defaults of the source; `I2C_NUM_0` is port 0. -/
structure Config_t where
  pin_scl : Int := -1
  pin_sda : Int := -1
  pin_int : Int := -1
  i2c_port : Nat := 0
  dev_addr : uint8_t := 0x51
deriving DecidableEq

/-- Broken-down time `struct tm` of `<ctime>`: nine `int` fields. -/
structure tm where
  tm_sec : Int
  tm_min : Int
  tm_hour : Int
  tm_mday : Int
  tm_mon : Int
  tm_year : Int
  tm_wday : Int
  tm_yday : Int
  tm_isdst : Int
deriving DecidableEq

/-- Scratch array `uint8_t _data_buffer[8]`; `bi` is `_data_buffer[i]`. -/
structure Buffer where
  b0 : uint8_t
  b1 : uint8_t
  b2 : uint8_t
  b3 : uint8_t
  b4 : uint8_t
  b5 : uint8_t
  b6 : uint8_t
  b7 : uint8_t
deriving DecidableEq

/-- Bytes of the scratch array in index order. -/
def Buffer.toList (b : Buffer) : List uint8_t :=
  [b.b0, b.b1, b.b2, b.b3, b.b4, b.b5, b.b6, b.b7]

/-- Store received bytes at the start of the scratch array; positions for which no byte
was received keep their content. -/
def Buffer.store (b : Buffer) (data : List uint8_t) : Buffer :=
  { b0 := data.getD 0 b.b0
    b1 := data.getD 1 b.b1
    b2 := data.getD 2 b.b2
    b3 := data.getD 3 b.b3
    b4 := data.getD 4 b.b4
    b5 := data.getD 5 b.b5
    b6 := data.getD 6 b.b6
    b7 := data.getD 7 b.b7 }

/-- Pin direction passed to `gpio_set_direction`; the driver only uses `GPIO_MODE_INPUT`. -/
inductive gpio_mode_t where
  | GPIO_MODE_INPUT
deriving DecidableEq

/-- External calls issued by the driver, with the arguments that vary. -/
inductive Call where
  | i2c_master_write_to_device (i2c_num : Nat) (device_address : uint8_t)
      (write_buffer : List uint8_t)
  | i2c_master_write_read_device (i2c_num : Nat) (device_address : uint8_t)
      (write_buffer : List uint8_t) (read_size : Nat)
  | gpio_reset_pin (gpio_num : Int)
  | gpio_set_direction (gpio_num : Int) (mode : gpio_mode_t)
deriving DecidableEq

/-- Outcome of one bus transaction: its status and, for a read, the bytes delivered into
the read buffer (possibly fewer than requested when the transaction fails). -/
structure Reply where
  err : esp_err_t
  data : List uint8_t
deriving DecidableEq

/-- Transport collaborator: the outcome of a call, given the calls made before it. -/
abbrev Transport := List Call → Call → Reply

/-- State of a `PCF8563` object (`_cfg`, `_data_buffer`) together with the history of the
external calls it has made. -/
structure PCF8563 where
  _cfg : Config_t
  _data_buffer : Buffer
  calls : List Call
deriving DecidableEq

/-! ## Private helpers -/

/-- Call of `i2c_master_write_to_device` on the first `size` bytes of `_data_buffer`. -/
def i2c_master_write_to_device (bus : Transport) (self : PCF8563) (size : Nat) :
    esp_err_t × PCF8563 :=
  let c := Call.i2c_master_write_to_device self._cfg.i2c_port self._cfg.dev_addr
    (self._data_buffer.toList.take size)
  ((bus self.calls c).err, { self with calls := self.calls ++ [c] })

/-- Source `_write_reg(reg, data)`: stage two bytes and write them to the device. -/
def _write_reg (bus : Transport) (self : PCF8563) (reg data : uint8_t) :
    esp_err_t × PCF8563 :=
  let buf := { self._data_buffer with b0 := reg }
  let buf := { buf with b1 := data }
  i2c_master_write_to_device bus { self with _data_buffer := buf } 2

/-- Source `_read_reg(reg, readSize)`: one write-read transaction of the register address,
the received bytes going to the start of `_data_buffer`. -/
def _read_reg (bus : Transport) (self : PCF8563) (reg readSize : uint8_t) :
    esp_err_t × PCF8563 :=
  let c := Call.i2c_master_write_read_device self._cfg.i2c_port self._cfg.dev_addr
    [reg] readSize.val
  let r := bus self.calls c
  (r.err, { self with
    _data_buffer := self._data_buffer.store (r.data.take readSize.val)
    calls := self.calls ++ [c] })

/-- Source `bcd2dec`: `(val >> 4) * 10 + (val & 0x0f)`, truncated to `uint8_t`. -/
def bcd2dec (val : uint8_t) : uint8_t :=
  toU8 (((val.val : Int) >>> 4) * 10 + int_and (val.val : Int) 0x0f)

/-- Source `dec2bcd`: `((val / 10) << 4) + (val % 10)`, truncated to `uint8_t`. -/
def dec2bcd (val : uint8_t) : uint8_t :=
  toU8 ((((val.val : Int) / 10) <<< 4) + (val.val : Int) % 10)

/-! ## Public operations -/

/-- Source `config()`. -/
def config (self : PCF8563) : Config_t := self._cfg

/-- Source `config(cfg)`. -/
def config_set (self : PCF8563) (cfg : Config_t) : PCF8563 := { self with _cfg := cfg }

/-- Source `setPin(sda, scl, intr)`. -/
def setPin (self : PCF8563) (sda scl intr : Int) : PCF8563 :=
  { self with _cfg := { self._cfg with pin_sda := sda, pin_scl := scl, pin_int := intr } }

/-- Source `gpioInit()`: the interrupt pin is reset and made an input when `pin_int > 0`. -/
def gpioInit (self : PCF8563) : PCF8563 :=
  if self._cfg.pin_int > 0 then
    { self with calls := self.calls ++
        [Call.gpio_reset_pin self._cfg.pin_int,
         Call.gpio_set_direction self._cfg.pin_int gpio_mode_t.GPIO_MODE_INPUT] }
  else self

/-- Source `init()`: three register writes whose status is discarded. -/
def init (bus : Transport) (self : PCF8563) : Bool × PCF8563 :=
  let self := gpioInit self
  let self := (_write_reg bus self 0x00 0x00).2
  let self := (_write_reg bus self 0x00 0x00).2
  let self := (_write_reg bus self 0x0E 0x03).2
  (true, self)

/-- Source `init(sda, scl, intr)`. -/
def init_pins (bus : Transport) (self : PCF8563) (sda scl intr : Int) : Bool × PCF8563 :=
  init bus (setPin self sda scl intr)

/-- Decoding part of `getTime` (the eight assignments to `time`). -/
def decodeTime (buf : Buffer) (time : tm) : tm :=
  let time := { time with tm_sec := (bcd2dec (toU8 (int_and buf.b0.val 0x7F))).val }
  let time := { time with tm_min := (bcd2dec (toU8 (int_and buf.b1.val 0x7F))).val }
  let time := { time with tm_hour := (bcd2dec (toU8 (int_and buf.b2.val 0x3F))).val }
  let time := { time with tm_mday := (bcd2dec (toU8 (int_and buf.b3.val 0x3F))).val }
  let time := { time with tm_wday := (bcd2dec (toU8 (int_and buf.b4.val 0x07))).val }
  let time := { time with tm_mon := (bcd2dec (toU8 (int_and buf.b5.val 0x1F))).val - 1 }
  let time := { time with tm_year := (bcd2dec buf.b6).val + 2000 }
  { time with tm_isdst := 0 }

/-- Source `getTime(time)`: the status, the caller's `time` after the call, the new state. -/
def getTime (bus : Transport) (self : PCF8563) (time : tm) : esp_err_t × tm × PCF8563 :=
  let rd := _read_reg bus self 0x02 7
  if rd.1 ≠ ESP_OK then (rd.1, time, rd.2)
  else (ESP_OK, decodeTime rd.2._data_buffer time, rd.2)

/-- Encoding part of `setTime` (the eight assignments to `_data_buffer`). -/
def encodeTime (buf : Buffer) (time : tm) : Buffer :=
  let buf := { buf with b0 := 0x02 }
  let buf := { buf with b1 := dec2bcd (toU8 time.tm_sec) }
  let buf := { buf with b2 := dec2bcd (toU8 time.tm_min) }
  let buf := { buf with b3 := dec2bcd (toU8 time.tm_hour) }
  let buf := { buf with b4 := dec2bcd (toU8 time.tm_mday) }
  let buf := { buf with b5 := dec2bcd (toU8 time.tm_wday) }
  let buf := { buf with b6 := dec2bcd (toU8 (toInt (time.tm_mon + 1))) }
  { buf with b7 := dec2bcd (toU8 (toInt (time.tm_year - 2000))) }

/-- Source `setTime(time)`: stage the address and the time block, write all 8 bytes. -/
def setTime (bus : Transport) (self : PCF8563) (time : tm) : esp_err_t × PCF8563 :=
  i2c_master_write_to_device bus
    { self with _data_buffer := encodeTime self._data_buffer time } 8

/-- Source `setAlarmIRQ(afterSeconds)`: the returned `int` and the new state.

The source assigns `div`, `type_value` and `afterSeconds` inside one `if (afterSeconds < 270)`
/ `else`; here each of the three is bound by its own conditional on the same test of the
original argument.  `div` is a `std::size_t`, so `(afterSeconds + 30) / div` and
`afterSeconds * div` are evaluated in `std::size_t` and converted back to `int`; the `int`
sum `afterSeconds + 30` wraps around where C leaves the overflow undefined (arguments above
2^31 - 31). -/
def setAlarmIRQ (bus : Transport) (self : PCF8563) (afterSeconds : Int) : Int × PCF8563 :=
  let self := (_read_reg bus self 0x01 1).2
  let reg_value : uint8_t := toU8 (int_and self._data_buffer.b0.val (int_not 0x0C))
  if afterSeconds < 0 then
    let self := (_write_reg bus self 0x01 (toU8 (int_and reg_value.val (int_not 0x01)))).2
    let self := (_write_reg bus self 0x0E 0x03).2
    (-1, self)
  else
    let div : Nat := if afterSeconds < 270 then 1 else 60
    let type_value : uint8_t := if afterSeconds < 270 then 0x82 else 0x83
    let afterSeconds : Int :=
      if afterSeconds < 270 then
        if afterSeconds > 255 then 255 else afterSeconds
      else
        let afterSeconds := toInt (toSizeT (toInt (afterSeconds + 30)) / 60 : Nat)
        if afterSeconds > 255 then 255 else afterSeconds
    let self := (_write_reg bus self 0x0E type_value).2
    let self := (_write_reg bus self 0x0F (toU8 afterSeconds)).2
    let self := (_write_reg bus self 0x01
      (toU8 (int_and (int_or reg_value.val 0x01) (int_not 0x80)))).2
    (toInt ((toSizeT afterSeconds * div % 4294967296 : Nat) : Int), self)

/-- Source `clearIRQ()`. -/
def clearIRQ (bus : Transport) (self : PCF8563) : PCF8563 :=
  let self := (_read_reg bus self 0x01 1).2
  let self := { self with _data_buffer :=
    { self._data_buffer with b0 := toU8 (int_and self._data_buffer.b0.val 0xF3) } }
  (_write_reg bus self 0x01 self._data_buffer.b0).2

/-- Source `disableIRQ()`. -/
def disableIRQ (bus : Transport) (self : PCF8563) : PCF8563 :=
  let buf := { self._data_buffer with b0 := 0x09 }
  let buf := { buf with b1 := 0x80 }
  let buf := { buf with b2 := 0x80 }
  let buf := { buf with b3 := 0x80 }
  let buf := { buf with b4 := 0x80 }
  let self := (i2c_master_write_to_device bus { self with _data_buffer := buf } 5).2
  let self := (_write_reg bus self 0x0E 0).2
  (_write_reg bus self 0x01 0x00).2

/-! ## Vocabulary of the statements -/

/-- The call made by `_read_reg(reg, readSize)` under configuration `cfg`. -/
def regRead (cfg : Config_t) (reg : uint8_t) (readSize : Nat) : Call :=
  Call.i2c_master_write_read_device cfg.i2c_port cfg.dev_addr [reg] readSize

/-- The call made by `_write_reg(reg, data)` under configuration `cfg`. -/
def regWrite (cfg : Config_t) (reg data : uint8_t) : Call :=
  Call.i2c_master_write_to_device cfg.i2c_port cfg.dev_addr [reg, data]

/-- The byte that `setAlarmIRQ` takes for the content of control register 0x01: the first
byte of the scratch buffer after its `_read_reg(0x01, 1)`. -/
def controlByte (bus : Transport) (self : PCF8563) : uint8_t :=
  (_read_reg bus self 0x01 1).2._data_buffer.b0

/-- A delay in seconds that the countdown timer can represent: `k` ticks of one second or
`k` ticks of one minute, for a count `k` in 0..255. -/
def Achievable (d : Int) : Prop :=
  ∃ k : Nat, k ≤ 255 ∧ (d = k ∨ d = 60 * k)

/-- The delay `d` is achievable and no achievable delay is nearer to the request `a`. -/
def ClosestAchievable (a d : Int) : Prop :=
  Achievable d ∧ ∀ e : Int, Achievable e → (d - a).natAbs ≤ (e - a).natAbs

/-- Register address of a bus call: the first byte it sends to the device. -/
def regAddress : Call → Option uint8_t
  | Call.i2c_master_write_to_device _ _ buf => buf.head?
  | Call.i2c_master_write_read_device _ _ buf _ => buf.head?
  | Call.gpio_reset_pin _ => none
  | Call.gpio_set_direction _ _ => none

/-- Whether a call is a bus write addressed to timer register 0x0E or 0x0F. -/
def isTimerWrite : Call → Bool
  | Call.i2c_master_write_to_device _ _ (reg :: _) => reg == 0x0E || reg == 0x0F
  | _ => false

/-- Whether a call is a bus transaction (as opposed to a GPIO call). -/
def isBusCall : Call → Bool
  | Call.i2c_master_write_to_device _ _ _ => true
  | Call.i2c_master_write_read_device _ _ _ _ => true
  | Call.gpio_reset_pin _ => false
  | Call.gpio_set_direction _ _ => false

/-- A byte is valid BCD when both of its nibbles are decimal digits. -/
def ValidBCD (b : uint8_t) : Prop := b.val / 16 ≤ 9 ∧ b.val % 16 ≤ 9

/-- A calendar time of year 2100, outside the two-digit range of the chip. -/
def year2100 : tm :=
  { tm_sec := 0, tm_min := 0, tm_hour := 0, tm_mday := 1, tm_mon := 0, tm_year := 2100,
    tm_wday := 5, tm_yday := 0, tm_isdst := 0 }

/-- The register image of `year2100`; the year byte 0xA0 is not valid BCD. -/
def year2100Block : List uint8_t := [0x00, 0x00, 0x00, 0x01, 0x05, 0x01, 0xA0]

/-- A calendar time of year 1999, below the century base. -/
def year1999 : tm :=
  { tm_sec := 0, tm_min := 0, tm_hour := 0, tm_mday := 31, tm_mon := 11, tm_year := 1999,
    tm_wday := 5, tm_yday := 364, tm_isdst := 0 }

/-- The register image of `year1999`: the year byte is `dec2bcd(255)`, that is 0x95. -/
def year1999Block : List uint8_t := [0x00, 0x00, 0x00, 0x31, 0x05, 0x12, 0x95]

/-- The image of `leapDay` with the voltage-low flag (bit 7 of the seconds register) and
the unused upper bits of the other masked registers set. -/
def leapDayBlockFlags : List uint8_t := [0xD8, 0xD9, 0xE3, 0xE9, 0xFC, 0xE2, 0x24]

/-- A controller like `fresh` whose interrupt pin is GPIO 14. -/
def freshWithInt : PCF8563 :=
  { _cfg := { pin_int := 14 }, _data_buffer := ⟨0, 0, 0, 0, 0, 0, 0, 0⟩, calls := [] }

/-! ## Sample transports and states -/

/-- A transport on which every transaction succeeds and every read delivers `data`. -/
def replyBus (data : List uint8_t) : Transport := fun _ _ => { err := ESP_OK, data := data }

/-- A transport on which every transaction fails with `ESP_FAIL` (-1), delivering nothing. -/
def deadBus : Transport := fun _ _ => { err := -1, data := [] }

/-- A sample calendar time: Thursday 2024-02-29, 23:59:58 (month 0-based). -/
def leapDay : tm :=
  { tm_sec := 58, tm_min := 59, tm_hour := 23, tm_mday := 29, tm_mon := 1, tm_year := 2024,
    tm_wday := 4, tm_yday := 59, tm_isdst := 0 }

/-- The register image of `leapDay`: registers 0x02..0x08. -/
def leapDayBlock : List uint8_t := [0x58, 0x59, 0x23, 0x29, 0x04, 0x02, 0x24]

/-- A caller-side time value with every field set to 7. -/
def sevens : tm :=
  { tm_sec := 7, tm_min := 7, tm_hour := 7, tm_mday := 7, tm_mon := 7, tm_year := 7,
    tm_wday := 7, tm_yday := 7, tm_isdst := 7 }

/-- A fresh controller: default configuration, zeroed scratch buffer, no call made yet. -/
def fresh : PCF8563 :=
  { _cfg := {}, _data_buffer := ⟨0, 0, 0, 0, 0, 0, 0, 0⟩, calls := [] }

end PCF8563

namespace PCF8563

/-! ## Bus traffic of the register helpers -/

theorem write_reg_calls (bus : Transport) (self : PCF8563) (reg data : uint8_t) :
    (_write_reg bus self reg data).2.calls = self.calls ++ [regWrite self._cfg reg data] := by
  simp [_write_reg, i2c_master_write_to_device, regWrite, Buffer.toList]

theorem write_reg_cfg (bus : Transport) (self : PCF8563) (reg data : uint8_t) :
    (_write_reg bus self reg data).2._cfg = self._cfg := by
  simp [_write_reg, i2c_master_write_to_device]

theorem read_reg_calls (bus : Transport) (self : PCF8563) (reg readSize : uint8_t) :
    (_read_reg bus self reg readSize).2.calls
      = self.calls ++ [regRead self._cfg reg readSize.val] := by
  simp [_read_reg, regRead]

theorem read_reg_cfg (bus : Transport) (self : PCF8563) (reg readSize : uint8_t) :
    (_read_reg bus self reg readSize).2._cfg = self._cfg := by
  simp [_read_reg]

/-! ## Countdown timer: returned delay -/

theorem setAlarmIRQ_fst_neg (bus : Transport) (self : PCF8563) (a : Int) (h : a < 0) :
    (setAlarmIRQ bus self a).1 = -1 := by
  simp [setAlarmIRQ, h]

theorem setAlarmIRQ_fst_sec (bus : Transport) (self : PCF8563) (a : Int)
    (h0 : 0 ≤ a) (h : a < 270) :
    (setAlarmIRQ bus self a).1 = min a 255 := by
  have hn : ¬ a < 0 := by omega
  simp only [setAlarmIRQ, hn, h, if_true, if_false, toInt, toSizeT]
  split <;> omega

theorem setAlarmIRQ_fst_min (bus : Transport) (self : PCF8563) (a : Int)
    (h : 270 ≤ a) (hmax : a ≤ 2147483617) :
    (setAlarmIRQ bus self a).1 = 60 * min ((a + 30) / 60) 255 := by
  have hn : ¬ a < 0 := by omega
  have hs : ¬ a < 270 := by omega
  simp only [setAlarmIRQ, hn, hs, if_true, if_false, toInt, toSizeT]
  split <;> omega

/-! ## Countdown timer: bus traffic -/

/-- Count byte handed to `_write_reg(0x0F, ...)` on the arm path. -/
theorem count_byte_sec (a : Int) (h0 : 0 ≤ a) (h : a < 270) :
    ((toU8 (if a > 255 then 255 else a)).val : Int) = min a 255 := by
  simp only [toU8]
  split <;> omega

theorem count_byte_min (a : Int) (h : 270 ≤ a) (hmax : a ≤ 2147483617) :
    (if toInt ((toSizeT (toInt (a + 30)) / 60 : Nat) : Int) > 255 then (255 : Int)
      else toInt ((toSizeT (toInt (a + 30)) / 60 : Nat) : Int)) = min ((a + 30) / 60) 255 := by
  simp only [toInt, toSizeT]
  split <;> omega

theorem setAlarmIRQ_calls_disable (bus : Transport) (self : PCF8563) (a : Int) (h : a < 0) :
    (setAlarmIRQ bus self a).2.calls = self.calls ++
      [regRead self._cfg 0x01 1,
       regWrite self._cfg 0x01 (toU8 (int_and
         (toU8 (int_and (controlByte bus self).val (int_not 0x0C))).val (int_not 0x01))),
       regWrite self._cfg 0x0E 0x03] := by
  simp only [setAlarmIRQ, h, if_true, write_reg_calls, write_reg_cfg, read_reg_calls,
    read_reg_cfg, List.append_assoc, List.cons_append, List.nil_append, controlByte]
  rfl

theorem setAlarmIRQ_calls_sec (bus : Transport) (self : PCF8563) (a : Int)
    (h0 : 0 ≤ a) (h : a < 270) :
    (setAlarmIRQ bus self a).2.calls = self.calls ++
      [regRead self._cfg 0x01 1,
       regWrite self._cfg 0x0E 0x82,
       regWrite self._cfg 0x0F (toU8 (min a 255)),
       regWrite self._cfg 0x01 (toU8 (int_and (int_or
         (toU8 (int_and (controlByte bus self).val (int_not 0x0C))).val 0x01)
         (int_not 0x80)))] := by
  have hn : ¬ a < 0 := by omega
  have hc : (if a > 255 then (255 : Int) else a) = min a 255 := by split <;> omega
  simp only [setAlarmIRQ, hn, h, hc, if_true, if_false, write_reg_calls, write_reg_cfg,
    read_reg_calls, read_reg_cfg, List.append_assoc, List.cons_append, List.nil_append,
    controlByte]
  rfl

theorem setAlarmIRQ_calls_min (bus : Transport) (self : PCF8563) (a : Int)
    (h : 270 ≤ a) (hmax : a ≤ 2147483617) :
    (setAlarmIRQ bus self a).2.calls = self.calls ++
      [regRead self._cfg 0x01 1,
       regWrite self._cfg 0x0E 0x83,
       regWrite self._cfg 0x0F (toU8 (min ((a + 30) / 60) 255)),
       regWrite self._cfg 0x01 (toU8 (int_and (int_or
         (toU8 (int_and (controlByte bus self).val (int_not 0x0C))).val 0x01)
         (int_not 0x80)))] := by
  have hn : ¬ a < 0 := by omega
  have hs : ¬ a < 270 := by omega
  simp only [setAlarmIRQ, hn, hs, count_byte_min a h hmax, if_true, if_false, write_reg_calls,
    write_reg_cfg, read_reg_calls, read_reg_cfg, List.append_assoc, List.cons_append,
    List.nil_append, controlByte]
  rfl

/-! ## Control-register bytes, checked on all 256 values -/

set_option maxRecDepth 100000 in
theorem control_byte_disable : ∀ r : uint8_t,
    (toU8 (int_and (toU8 (int_and r.val (int_not 0x0C))).val (int_not 0x01))).val
      = r.val &&& 0xF2 := by
  decide

set_option maxRecDepth 100000 in
theorem control_byte_arm : ∀ r : uint8_t,
    (toU8 (int_and (int_or (toU8 (int_and r.val (int_not 0x0C))).val 0x01)
      (int_not 0x80))).val = ((r.val &&& 0xF3) ||| 0x01) &&& 0x7F := by
  decide

set_option maxRecDepth 100000 in
theorem control_bits_disable : ∀ r : uint8_t,
    (r.val &&& 0xF2).testBit 0 = false ∧ (r.val &&& 0xF2).testBit 2 = false ∧
    (r.val &&& 0xF2).testBit 3 = false ∧
    ∀ i : Fin 8, i ≠ 0 → i ≠ 2 → i ≠ 3 →
      (r.val &&& 0xF2).testBit i.val = r.val.testBit i.val := by
  decide

set_option maxRecDepth 100000 in
theorem control_bits_arm : ∀ r : uint8_t,
    (((r.val &&& 0xF3) ||| 0x01) &&& 0x7F).testBit 0 = true ∧
    (((r.val &&& 0xF3) ||| 0x01) &&& 0x7F).testBit 2 = false ∧
    (((r.val &&& 0xF3) ||| 0x01) &&& 0x7F).testBit 3 = false ∧
    (((r.val &&& 0xF3) ||| 0x01) &&& 0x7F).testBit 7 = false ∧
    (((r.val &&& 0xF3) ||| 0x01) &&& 0x7F).testBit 1 = r.val.testBit 1 ∧
    (((r.val &&& 0xF3) ||| 0x01) &&& 0x7F).testBit 4 = r.val.testBit 4 ∧
    (((r.val &&& 0xF3) ||| 0x01) &&& 0x7F).testBit 5 = r.val.testBit 5 ∧
    (((r.val &&& 0xF3) ||| 0x01) &&& 0x7F).testBit 6 = r.val.testBit 6 := by
  decide

theorem setAlarmIRQ_calls_arm (bus : Transport) (self : PCF8563) (a : Int) (h0 : 0 ≤ a) :
    ∃ ty cnt : uint8_t, (setAlarmIRQ bus self a).2.calls = self.calls ++
      [regRead self._cfg 0x01 1,
       regWrite self._cfg 0x0E ty,
       regWrite self._cfg 0x0F cnt,
       regWrite self._cfg 0x01 (toU8 (int_and (int_or
         (toU8 (int_and (controlByte bus self).val (int_not 0x0C))).val 0x01)
         (int_not 0x80)))] := by
  have hn : ¬ a < 0 := by omega
  refine ⟨if a < 270 then 0x82 else 0x83,
    toU8 (if a < 270 then (if a > 255 then 255 else a)
      else (if toInt ((toSizeT (toInt (a + 30)) / 60 : Nat) : Int) > 255 then 255
        else toInt ((toSizeT (toInt (a + 30)) / 60 : Nat) : Int))), ?_⟩
  simp only [setAlarmIRQ, hn, if_false, write_reg_calls, write_reg_cfg,
    read_reg_calls, read_reg_cfg, List.append_assoc, List.cons_append, List.nil_append,
    controlByte]
  rfl

theorem controlByte_eq (bus : Transport) (self : PCF8563) :
    controlByte bus self
      = (bus self.calls (regRead self._cfg 0x01 1)).data.getD 0 self._data_buffer.b0 := by
  have h : ∀ d : List uint8_t,
      (d.take 1).getD 0 self._data_buffer.b0 = d.getD 0 self._data_buffer.b0 := by
    intro d
    cases d <;> rfl
  exact h _

/-! ## Claims on the countdown timer -/

/-- C1: for every `afterSeconds` with 270 <= afterSeconds <= 2^31 - 31, `setAlarmIRQ`
selects minute resolution: after reading register 0x01 it writes the type byte 0x83 to
register 0x0E, the count min((afterSeconds + 30) / 60, 255) to register 0x0F, then the
control register, and it returns 60 times that count. -/
theorem C1_setAlarmIRQ_minute_resolution (bus : Transport) (self : PCF8563)
    (afterSeconds : Int) (hlo : 270 ≤ afterSeconds) (hhi : afterSeconds ≤ 2 ^ 31 - 31) :
    ∃ count ctl : uint8_t,
      (count.val : Int) = min ((afterSeconds + 30) / 60) 255 ∧
      (setAlarmIRQ bus self afterSeconds).2.calls = self.calls ++
        [regRead self._cfg 0x01 1,
         regWrite self._cfg 0x0E 0x83,
         regWrite self._cfg 0x0F count,
         regWrite self._cfg 0x01 ctl] ∧
      (setAlarmIRQ bus self afterSeconds).1 = 60 * (count.val : Int) := by
  have hmax : afterSeconds ≤ 2147483617 := by
    have h : (2 : Int) ^ 31 - 31 = 2147483617 := by norm_num
    omega
  have hc : ((toU8 (min ((afterSeconds + 30) / 60) 255)).val : Int)
      = min ((afterSeconds + 30) / 60) 255 := by
    simp only [toU8]
    omega
  refine ⟨toU8 (min ((afterSeconds + 30) / 60) 255), _, hc,
    setAlarmIRQ_calls_min bus self afterSeconds hlo hmax, ?_⟩
  rw [setAlarmIRQ_fst_min bus self afterSeconds hlo hmax, hc]

/-- Instances of C1 at 300 (count 5, returns 300) and at 20000 (count 255, returns 15300),
on a fresh controller whose bus fails every transaction. -/
theorem C1_setAlarmIRQ_minute_resolution_witness :
    ((270 : Int) ≤ 300 ∧ (300 : Int) ≤ 2 ^ 31 - 31 ∧
      ∃ ctl : uint8_t,
        (setAlarmIRQ deadBus fresh 300).2.calls =
          [regRead fresh._cfg 0x01 1, regWrite fresh._cfg 0x0E 0x83,
           regWrite fresh._cfg 0x0F 5, regWrite fresh._cfg 0x01 ctl] ∧
        (setAlarmIRQ deadBus fresh 300).1 = 300) ∧
    ((270 : Int) ≤ 20000 ∧ (20000 : Int) ≤ 2 ^ 31 - 31 ∧
      ∃ ctl : uint8_t,
        (setAlarmIRQ deadBus fresh 20000).2.calls =
          [regRead fresh._cfg 0x01 1, regWrite fresh._cfg 0x0E 0x83,
           regWrite fresh._cfg 0x0F 255, regWrite fresh._cfg 0x01 ctl] ∧
        (setAlarmIRQ deadBus fresh 20000).1 = 15300) := by
  refine ⟨⟨by decide, by decide, ?_⟩, ⟨by decide, by decide, ?_⟩⟩
  · obtain ⟨count, ctl, hc, hcalls, hret⟩ :=
      C1_setAlarmIRQ_minute_resolution deadBus fresh 300 (by decide) (by decide)
    have h5 : count = 5 := by
      apply Fin.ext
      have : ((5 : uint8_t).val : Int) = 5 := rfl
      omega
    subst h5
    exact ⟨ctl, hcalls, hret⟩
  · obtain ⟨count, ctl, hc, hcalls, hret⟩ :=
      C1_setAlarmIRQ_minute_resolution deadBus fresh 20000 (by decide) (by decide)
    have h255 : count = 255 := by
      apply Fin.ext
      have : ((255 : uint8_t).val : Int) = 255 := rfl
      omega
    subst h255
    exact ⟨ctl, hcalls, hret⟩

/-- C2: for every `afterSeconds` with 0 <= afterSeconds < 270, `setAlarmIRQ` selects
second resolution on the unclamped request: after reading register 0x01 it writes the type
byte 0x82 to register 0x0E, the count min(afterSeconds, 255) to register 0x0F, then the
control register, and it returns min(afterSeconds, 255). -/
theorem C2_setAlarmIRQ_second_resolution (bus : Transport) (self : PCF8563)
    (afterSeconds : Int) (hlo : 0 ≤ afterSeconds) (hhi : afterSeconds < 270) :
    ∃ count ctl : uint8_t,
      (count.val : Int) = min afterSeconds 255 ∧
      (setAlarmIRQ bus self afterSeconds).2.calls = self.calls ++
        [regRead self._cfg 0x01 1,
         regWrite self._cfg 0x0E 0x82,
         regWrite self._cfg 0x0F count,
         regWrite self._cfg 0x01 ctl] ∧
      (setAlarmIRQ bus self afterSeconds).1 = min afterSeconds 255 := by
  have hc : ((toU8 (min afterSeconds 255)).val : Int) = min afterSeconds 255 := by
    simp only [toU8]
    omega
  exact ⟨toU8 (min afterSeconds 255), _, hc,
    setAlarmIRQ_calls_sec bus self afterSeconds hlo hhi,
    setAlarmIRQ_fst_sec bus self afterSeconds hlo hhi⟩

/-- Instances of C2 at 100 (count 100, returns 100) and at 260 (count 255, returns 255,
type byte 0x82), on a fresh controller whose bus fails every transaction. -/
theorem C2_setAlarmIRQ_second_resolution_witness :
    ((0 : Int) ≤ 100 ∧ (100 : Int) < 270 ∧
      ∃ ctl : uint8_t,
        (setAlarmIRQ deadBus fresh 100).2.calls =
          [regRead fresh._cfg 0x01 1, regWrite fresh._cfg 0x0E 0x82,
           regWrite fresh._cfg 0x0F 100, regWrite fresh._cfg 0x01 ctl] ∧
        (setAlarmIRQ deadBus fresh 100).1 = 100) ∧
    ((0 : Int) ≤ 260 ∧ (260 : Int) < 270 ∧
      ∃ ctl : uint8_t,
        (setAlarmIRQ deadBus fresh 260).2.calls =
          [regRead fresh._cfg 0x01 1, regWrite fresh._cfg 0x0E 0x82,
           regWrite fresh._cfg 0x0F 255, regWrite fresh._cfg 0x01 ctl] ∧
        (setAlarmIRQ deadBus fresh 260).1 = 255) := by
  refine ⟨⟨by decide, by decide, ?_⟩, ⟨by decide, by decide, ?_⟩⟩
  · obtain ⟨count, ctl, hc, hcalls, hret⟩ :=
      C2_setAlarmIRQ_second_resolution deadBus fresh 100 (by decide) (by decide)
    have h100 : count = 100 := by
      apply Fin.ext
      have : ((100 : uint8_t).val : Int) = 100 := rfl
      omega
    subst h100
    exact ⟨ctl, hcalls, hret⟩
  · obtain ⟨count, ctl, hc, hcalls, hret⟩ :=
      C2_setAlarmIRQ_second_resolution deadBus fresh 260 (by decide) (by decide)
    have h255 : count = 255 := by
      apply Fin.ext
      have : ((255 : uint8_t).val : Int) = 255 := rfl
      omega
    subst h255
    exact ⟨ctl, hcalls, hret⟩

/-- C3, as stated, fails at the 270-second boundary: `setAlarmIRQ(270)` returns 300 (five
minute ticks), which is 30 seconds away from the request, while 255 one-second ticks are
only 15 seconds away. -/
theorem C3_closest_fails_at_270 :
    (setAlarmIRQ deadBus fresh 270).1 = 300 ∧ Achievable 255 ∧
    ((255 : Int) - 270).natAbs < ((300 : Int) - 270).natAbs ∧
    ¬ ClosestAchievable 270 (setAlarmIRQ deadBus fresh 270).1 := by
  have hret : (setAlarmIRQ deadBus fresh 270).1 = 300 := by
    rw [setAlarmIRQ_fst_min deadBus fresh 270 (by decide) (by decide)]
    decide
  have hach : Achievable 255 := ⟨255, by decide, Or.inl rfl⟩
  refine ⟨hret, hach, by decide, ?_⟩
  rintro ⟨_, hmin⟩
  have h := hmin 255 hach
  rw [hret] at h
  revert h
  decide

/-- C3 (amended): for every `afterSeconds` in 1..15300, the delay returned by `setAlarmIRQ`
is the closest achievable delay exactly when `afterSeconds` is not in 270..277. -/
theorem C3_closest_achievable_iff (bus : Transport) (self : PCF8563) (afterSeconds : Int)
    (hlo : 1 ≤ afterSeconds) (hhi : afterSeconds ≤ 15300) :
    ClosestAchievable afterSeconds (setAlarmIRQ bus self afterSeconds).1
      ↔ ¬ (270 ≤ afterSeconds ∧ afterSeconds ≤ 277) := by
  by_cases hs : afterSeconds < 270
  · rw [setAlarmIRQ_fst_sec bus self afterSeconds (by omega) hs]
    constructor
    · intro _
      omega
    · intro _
      refine ⟨⟨(min afterSeconds 255).toNat, by omega, Or.inl (by omega)⟩, ?_⟩
      rintro e ⟨k, hk, he | he⟩ <;> omega
  · rw [setAlarmIRQ_fst_min bus self afterSeconds (by omega) (by omega)]
    constructor
    · rintro ⟨_, hmin⟩ ⟨_, h277⟩
      have h := hmin 255 ⟨255, by decide, Or.inl rfl⟩
      omega
    · intro hnot
      refine ⟨⟨(min ((afterSeconds + 30) / 60) 255).toNat, by omega, Or.inr (by omega)⟩, ?_⟩
      rintro e ⟨k, hk, he | he⟩ <;> omega

/-- Instances of the amended C3: at 269 the returned delay is the closest achievable one,
at 278 as well. -/
theorem C3_closest_achievable_iff_witness :
    ((1 : Int) ≤ 269 ∧ (269 : Int) ≤ 15300 ∧
      (ClosestAchievable 269 (setAlarmIRQ deadBus fresh 269).1
        ↔ ¬ ((270 : Int) ≤ 269 ∧ (269 : Int) ≤ 277))) ∧
    ((1 : Int) ≤ 278 ∧ (278 : Int) ≤ 15300 ∧
      (ClosestAchievable 278 (setAlarmIRQ deadBus fresh 278).1
        ↔ ¬ ((270 : Int) ≤ 278 ∧ (278 : Int) ≤ 277))) :=
  ⟨⟨by decide, by decide,
      C3_closest_achievable_iff deadBus fresh 269 (by decide) (by decide)⟩,
   ⟨by decide, by decide,
      C3_closest_achievable_iff deadBus fresh 278 (by decide) (by decide)⟩⟩

/-- C4: for every `afterSeconds < 0`, with `r` the byte taken for control register 0x01,
`setAlarmIRQ` reads register 0x01 and then issues exactly two writes, in order: `r & 0xF2`
to register 0x01 (bits 0, 2 and 3 cleared, every other bit of `r` kept) and 0x03 to
register 0x0E; nothing is written to register 0x0F and the result is -1. -/
theorem C4_setAlarmIRQ_disable (bus : Transport) (self : PCF8563) (afterSeconds : Int)
    (hneg : afterSeconds < 0) :
    ∃ v : uint8_t,
      v.val = (controlByte bus self).val &&& 0xF2 ∧
      (v.val.testBit 0 = false ∧ v.val.testBit 2 = false ∧ v.val.testBit 3 = false ∧
        ∀ i : Fin 8, i ≠ 0 → i ≠ 2 → i ≠ 3 →
          v.val.testBit i.val = (controlByte bus self).val.testBit i.val) ∧
      (setAlarmIRQ bus self afterSeconds).2.calls = self.calls ++
        [regRead self._cfg 0x01 1,
         regWrite self._cfg 0x01 v,
         regWrite self._cfg 0x0E 0x03] ∧
      (∀ d : uint8_t, regWrite self._cfg 0x0F d ∉
        [regRead self._cfg 0x01 1, regWrite self._cfg 0x01 v, regWrite self._cfg 0x0E 0x03]) ∧
      (setAlarmIRQ bus self afterSeconds).1 = -1 := by
  refine ⟨_, control_byte_disable (controlByte bus self), ?_,
    setAlarmIRQ_calls_disable bus self afterSeconds hneg, ?_,
    setAlarmIRQ_fst_neg bus self afterSeconds hneg⟩
  · rw [control_byte_disable (controlByte bus self)]
    exact control_bits_disable (controlByte bus self)
  · intro d
    simp [regWrite, regRead]

/-- Instance of C4 at `afterSeconds = -1` on a bus whose read of register 0x01 delivers
0xFF: the control register receives 0xF2, the timer register 0x03, and the result is -1. -/
theorem C4_setAlarmIRQ_disable_witness :
    (-1 : Int) < 0 ∧ controlByte (replyBus [0xFF]) fresh = 0xFF ∧
    (setAlarmIRQ (replyBus [0xFF]) fresh (-1)).2.calls =
      [regRead fresh._cfg 0x01 1, regWrite fresh._cfg 0x01 0xF2,
       regWrite fresh._cfg 0x0E 0x03] ∧
    (setAlarmIRQ (replyBus [0xFF]) fresh (-1)).1 = -1 := by
  obtain ⟨v, hv, _, hcalls, _, hret⟩ :=
    C4_setAlarmIRQ_disable (replyBus [0xFF]) fresh (-1) (by decide)
  have hr : controlByte (replyBus [0xFF]) fresh = 0xFF := by decide
  have hv2 : v = 0xF2 := by
    apply Fin.ext
    rw [hv, hr]
    decide
  subst hv2
  exact ⟨by decide, hr, hcalls, hret⟩

/-- C7 (the doc comment of `setAlarmIRQ`: 256 or more selects the 1-minute cycle) does not
hold of the code: at `afterSeconds = 256` the type byte written to register 0x0E is 0x82
(one-second cycle), with count 255, and the result is 255; the minute-cycle byte 0x83 is
not written. -/
theorem C7_setAlarmIRQ_256_second_cycle (bus : Transport) (self : PCF8563) :
    ∃ ctl : uint8_t,
      (setAlarmIRQ bus self 256).2.calls = self.calls ++
        [regRead self._cfg 0x01 1,
         regWrite self._cfg 0x0E 0x82,
         regWrite self._cfg 0x0F 255,
         regWrite self._cfg 0x01 ctl] ∧
      regWrite self._cfg 0x0E 0x83 ∉
        [regRead self._cfg 0x01 1, regWrite self._cfg 0x0E 0x82,
         regWrite self._cfg 0x0F 255, regWrite self._cfg 0x01 ctl] ∧
      (setAlarmIRQ bus self 256).1 = 255 := by
  refine ⟨_, setAlarmIRQ_calls_sec bus self 256 (by decide) (by decide), ?_, ?_⟩
  · simp [regWrite, regRead]
  · rw [setAlarmIRQ_fst_sec bus self 256 (by decide) (by decide)]
    decide

/-- C8: for every `afterSeconds >= 0` and every byte `r` taken for control register 0x01,
the arm path of `setAlarmIRQ` reads register 0x01 and then issues exactly three writes, to
registers 0x0E, 0x0F and 0x01 in this order; the byte written to register 0x01 is
`((r & 0xF3) | 0x01) & 0x7F`: bit 0 set, bits 2, 3 and 7 clear, bits 1, 4, 5 and 6 those
of `r`. -/
theorem C8_setAlarmIRQ_arm_frame (bus : Transport) (self : PCF8563) (afterSeconds : Int)
    (h0 : 0 ≤ afterSeconds) :
    ∃ ty cnt v : uint8_t,
      (setAlarmIRQ bus self afterSeconds).2.calls = self.calls ++
        [regRead self._cfg 0x01 1,
         regWrite self._cfg 0x0E ty,
         regWrite self._cfg 0x0F cnt,
         regWrite self._cfg 0x01 v] ∧
      v.val = (((controlByte bus self).val &&& 0xF3) ||| 0x01) &&& 0x7F ∧
      v.val.testBit 0 = true ∧ v.val.testBit 2 = false ∧ v.val.testBit 3 = false ∧
      v.val.testBit 7 = false ∧
      v.val.testBit 1 = (controlByte bus self).val.testBit 1 ∧
      v.val.testBit 4 = (controlByte bus self).val.testBit 4 ∧
      v.val.testBit 5 = (controlByte bus self).val.testBit 5 ∧
      v.val.testBit 6 = (controlByte bus self).val.testBit 6 := by
  obtain ⟨ty, cnt, hcalls⟩ := setAlarmIRQ_calls_arm bus self afterSeconds h0
  refine ⟨ty, cnt, _, hcalls, control_byte_arm (controlByte bus self), ?_⟩
  rw [control_byte_arm (controlByte bus self)]
  exact control_bits_arm (controlByte bus self)

/-- Instance of C8 at `afterSeconds = 100` on a bus whose read of register 0x01 delivers
0xFF: the writes go to 0x0E, 0x0F, 0x01 and the control register receives 0x73. -/
theorem C8_setAlarmIRQ_arm_frame_witness :
    (0 : Int) ≤ 100 ∧ controlByte (replyBus [0xFF]) fresh = 0xFF ∧
    ∃ ty cnt : uint8_t,
      (setAlarmIRQ (replyBus [0xFF]) fresh 100).2.calls =
        [regRead fresh._cfg 0x01 1, regWrite fresh._cfg 0x0E ty,
         regWrite fresh._cfg 0x0F cnt, regWrite fresh._cfg 0x01 0x73] := by
  obtain ⟨ty, cnt, v, hcalls, hv, _⟩ :=
    C8_setAlarmIRQ_arm_frame (replyBus [0xFF]) fresh 100 (by decide)
  have hr : controlByte (replyBus [0xFF]) fresh = 0xFF := by decide
  have hv2 : v = 0x73 := by
    apply Fin.ext
    rw [hv, hr]
    decide
  subst hv2
  exact ⟨by decide, hr, ty, cnt, hcalls⟩

/-! ## BCD codec and time block -/

set_option maxRecDepth 100000 in
theorem bcd_roundtrip_byte : ∀ v : uint8_t, v.val ≤ 99 → bcd2dec (dec2bcd v) = v := by
  decide

set_option maxRecDepth 100000 in
theorem bcd_roundtrip_mask7F : ∀ v : uint8_t, v.val ≤ 59 →
    bcd2dec (toU8 (int_and (dec2bcd v).val 0x7F)) = v := by
  decide

set_option maxRecDepth 100000 in
theorem bcd_roundtrip_mask3F : ∀ v : uint8_t, v.val ≤ 31 →
    bcd2dec (toU8 (int_and (dec2bcd v).val 0x3F)) = v := by
  decide

set_option maxRecDepth 100000 in
theorem bcd_roundtrip_mask07 : ∀ v : uint8_t, v.val ≤ 6 →
    bcd2dec (toU8 (int_and (dec2bcd v).val 0x07)) = v := by
  decide

set_option maxRecDepth 100000 in
theorem bcd_roundtrip_mask1F : ∀ v : uint8_t, v.val ≤ 12 →
    bcd2dec (toU8 (int_and (dec2bcd v).val 0x1F)) = v := by
  decide

theorem toU8_val_of_range (x : Int) (h0 : 0 ≤ x) (h : x ≤ 255) : ((toU8 x).val : Int) = x := by
  simp only [toU8]
  omega

theorem toU8_toInt (x : Int) : toU8 (toInt x) = toU8 x := by
  apply Fin.ext
  simp only [toU8, toInt]
  omega

/-- Transfer of a byte-level round trip to an `int` field in range. -/
theorem field_roundtrip (f : uint8_t → uint8_t) (bound : Nat) (hb : bound ≤ 255)
    (hf : ∀ v : uint8_t, v.val ≤ bound → f v = v)
    (x : Int) (h0 : 0 ≤ x) (hx : x ≤ bound) : ((f (toU8 x)).val : Int) = x := by
  have hv : ((toU8 x).val : Int) = x := toU8_val_of_range x h0 (by omega)
  rw [hf (toU8 x) (by omega)]
  exact hv

/-- C5: for every integer `value` with 0 <= value <= 99, `bcd2dec(dec2bcd(value))` is
`value` (both functions on 8-bit unsigned bytes). -/
theorem C5_bcd_roundtrip (value : Int) (h0 : 0 ≤ value) (h99 : value ≤ 99) :
    ((bcd2dec (dec2bcd (toU8 value))).val : Int) = value :=
  field_roundtrip (fun v => bcd2dec (dec2bcd v)) 99 (by decide) bcd_roundtrip_byte
    value h0 h99

/-- Instance of C5 at 59: the BCD byte is 0x59 and it decodes to 59. -/
theorem C5_bcd_roundtrip_witness :
    (0 : Int) ≤ 59 ∧ (59 : Int) ≤ 99 ∧ dec2bcd (toU8 59) = 0x59 ∧
    ((bcd2dec (dec2bcd (toU8 59))).val : Int) = 59 :=
  ⟨by decide, by decide, by decide, C5_bcd_roundtrip 59 (by decide) (by decide)⟩

theorem setTime_calls (bus : Transport) (self : PCF8563) (time : tm) :
    (setTime bus self time).2.calls = self.calls ++
      [Call.i2c_master_write_to_device self._cfg.i2c_port self._cfg.dev_addr
        [0x02, dec2bcd (toU8 time.tm_sec), dec2bcd (toU8 time.tm_min),
         dec2bcd (toU8 time.tm_hour), dec2bcd (toU8 time.tm_mday),
         dec2bcd (toU8 time.tm_wday), dec2bcd (toU8 (time.tm_mon + 1)),
         dec2bcd (toU8 (time.tm_year - 2000))]] := by
  simp [setTime, i2c_master_write_to_device, encodeTime, Buffer.toList, toU8_toInt]

theorem getTime_ok (bus : Transport) (self : PCF8563) (time : tm)
    (hok : (bus self.calls (regRead self._cfg 0x02 7)).err = ESP_OK) :
    getTime bus self time
      = (ESP_OK, decodeTime (_read_reg bus self 0x02 7).2._data_buffer time,
          (_read_reg bus self 0x02 7).2) := by
  have h : (_read_reg bus self 0x02 7).1 = ESP_OK := hok
  simp [getTime, h]

theorem getTime_err (bus : Transport) (self : PCF8563) (time : tm)
    (herr : (bus self.calls (regRead self._cfg 0x02 7)).err ≠ ESP_OK) :
    getTime bus self time
      = ((bus self.calls (regRead self._cfg 0x02 7)).err, time,
          (_read_reg bus self 0x02 7).2) := by
  have h : (_read_reg bus self 0x02 7).1 ≠ ESP_OK := herr
  show (if (_read_reg bus self 0x02 7).1 ≠ ESP_OK then _ else _) = _
  rw [if_pos h]
  rfl

/-- C6: let `t` be a calendar time with year in [2000, 2099], second and minute 0..59,
hour 0..23, day of month 1..31, day of week 0..6, 0-based month 0..11 and daylight-saving
flag 0.  If `setTime t` put the bytes `0x02 :: block` on the bus and a later read of
register 0x02 succeeds and delivers `block`, then `getTime` returns `ESP_OK` and every
field it decodes is that of `t`: the caller's value becomes `t` up to `tm_yday`, which
`getTime` never assigns, and exactly `t` when the caller's `tm_yday` was that of `t`. -/
theorem C6_time_block_roundtrip (bus bus2 : Transport) (self self2 : PCF8563)
    (t time : tm) (block : List uint8_t)
    (hyear : 2000 ≤ t.tm_year ∧ t.tm_year ≤ 2099)
    (hsec : 0 ≤ t.tm_sec ∧ t.tm_sec ≤ 59)
    (hmin : 0 ≤ t.tm_min ∧ t.tm_min ≤ 59)
    (hhour : 0 ≤ t.tm_hour ∧ t.tm_hour ≤ 23)
    (hmday : 1 ≤ t.tm_mday ∧ t.tm_mday ≤ 31)
    (hwday : 0 ≤ t.tm_wday ∧ t.tm_wday ≤ 6)
    (hmon : 0 ≤ t.tm_mon ∧ t.tm_mon ≤ 11)
    (hdst : t.tm_isdst = 0)
    (hwritten : (setTime bus self t).2.calls = self.calls ++
      [Call.i2c_master_write_to_device self._cfg.i2c_port self._cfg.dev_addr
        (0x02 :: block)])
    (hok : (bus2 self2.calls (regRead self2._cfg 0x02 7)).err = ESP_OK)
    (hdata : (bus2 self2.calls (regRead self2._cfg 0x02 7)).data = block) :
    (getTime bus2 self2 time).1 = ESP_OK ∧
    (getTime bus2 self2 time).2.1 = { t with tm_yday := time.tm_yday } ∧
    (time.tm_yday = t.tm_yday → (getTime bus2 self2 time).2.1 = t) := by
  have hblock : block =
      [dec2bcd (toU8 t.tm_sec), dec2bcd (toU8 t.tm_min), dec2bcd (toU8 t.tm_hour),
       dec2bcd (toU8 t.tm_mday), dec2bcd (toU8 t.tm_wday), dec2bcd (toU8 (t.tm_mon + 1)),
       dec2bcd (toU8 (t.tm_year - 2000))] := by
    rw [setTime_calls] at hwritten
    have h := List.append_cancel_left hwritten
    simp only [List.cons.injEq, Call.i2c_master_write_to_device.injEq, true_and,
      and_true] at h
    exact h.symm
  have hbuf : (_read_reg bus2 self2 0x02 7).2._data_buffer
      = self2._data_buffer.store (block.take 7) := by
    rw [← hdata]
    rfl
  have e1 := field_roundtrip (fun v => bcd2dec (toU8 (int_and (dec2bcd v).val 0x7F))) 59
    (by decide) bcd_roundtrip_mask7F t.tm_sec hsec.1 hsec.2
  have e2 := field_roundtrip (fun v => bcd2dec (toU8 (int_and (dec2bcd v).val 0x7F))) 59
    (by decide) bcd_roundtrip_mask7F t.tm_min hmin.1 hmin.2
  have e3 := field_roundtrip (fun v => bcd2dec (toU8 (int_and (dec2bcd v).val 0x3F))) 31
    (by decide) bcd_roundtrip_mask3F t.tm_hour hhour.1 (by omega)
  have e4 := field_roundtrip (fun v => bcd2dec (toU8 (int_and (dec2bcd v).val 0x3F))) 31
    (by decide) bcd_roundtrip_mask3F t.tm_mday (by omega) hmday.2
  have e5 := field_roundtrip (fun v => bcd2dec (toU8 (int_and (dec2bcd v).val 0x07))) 6
    (by decide) bcd_roundtrip_mask07 t.tm_wday hwday.1 hwday.2
  have e6 := field_roundtrip (fun v => bcd2dec (toU8 (int_and (dec2bcd v).val 0x1F))) 12
    (by decide) bcd_roundtrip_mask1F (t.tm_mon + 1) (by omega) (by omega)
  have e7 := field_roundtrip (fun v => bcd2dec (dec2bcd v)) 99
    (by decide) bcd_roundtrip_byte (t.tm_year - 2000) (by omega) (by omega)
  simp only at e1 e2 e3 e4 e5 e6 e7
  have hres : (getTime bus2 self2 time).2.1 = { t with tm_yday := time.tm_yday } := by
    rw [getTime_ok bus2 self2 time hok]
    simp only [hbuf, hblock, decodeTime, Buffer.store, List.take, List.getD_cons_zero,
      List.getD_cons_succ, e1, e2, e3, e4, e5, e6, e7, ← hdst]
    cases t
    simp
  refine ⟨by rw [getTime_ok bus2 self2 time hok], hres, ?_⟩
  intro hy
  rw [hres, hy]

/-- Instance of C6 at `leapDay` (2024-02-29 23:59:58): `setTime` puts the block
58 59 23 29 04 02 24 (hex) after the address byte, and `getTime` on a bus that delivers this
block returns `leapDay` when the caller's value is `leapDay` itself. -/
theorem C6_time_block_roundtrip_witness :
    (setTime (replyBus []) fresh leapDay).2.calls = fresh.calls ++
      [Call.i2c_master_write_to_device fresh._cfg.i2c_port fresh._cfg.dev_addr
        (0x02 :: leapDayBlock)] ∧
    (replyBus leapDayBlock fresh.calls (regRead fresh._cfg 0x02 7)).err = ESP_OK ∧
    (replyBus leapDayBlock fresh.calls (regRead fresh._cfg 0x02 7)).data = leapDayBlock ∧
    (getTime (replyBus leapDayBlock) fresh sevens).2.1 = { leapDay with tm_yday := 7 } ∧
    (getTime (replyBus leapDayBlock) fresh leapDay).2.1 = leapDay := by
  have hw : (setTime (replyBus []) fresh leapDay).2.calls = fresh.calls ++
      [Call.i2c_master_write_to_device fresh._cfg.i2c_port fresh._cfg.dev_addr
        (0x02 :: leapDayBlock)] := by decide
  have h1 := C6_time_block_roundtrip (replyBus []) (replyBus leapDayBlock) fresh fresh
    leapDay sevens leapDayBlock (by decide) (by decide) (by decide) (by decide) (by decide)
    (by decide) (by decide) rfl hw rfl rfl
  have h2 := C6_time_block_roundtrip (replyBus []) (replyBus leapDayBlock) fresh fresh
    leapDay leapDay leapDayBlock (by decide) (by decide) (by decide) (by decide) (by decide)
    (by decide) (by decide) rfl hw rfl rfl
  exact ⟨hw, rfl, rfl, h1.2.1, h2.2.2 rfl⟩

/-! ## Time read and write: bus traffic and status -/

/-- C9: `getTime` makes one call, the 7-byte read of register 0x02, and returns an error
if and only if that read fails; in that case it returns the status of the read and leaves
the caller's time value unchanged, and when the read succeeds it returns `ESP_OK` with
the daylight-saving flag of the result set to 0. -/
theorem C9_getTime_error_propagation (bus : Transport) (self : PCF8563) (time : tm) :
    (getTime bus self time).2.2.calls = self.calls ++ [regRead self._cfg 0x02 7] ∧
    ((getTime bus self time).1 ≠ ESP_OK
      ↔ (bus self.calls (regRead self._cfg 0x02 7)).err ≠ ESP_OK) ∧
    ((bus self.calls (regRead self._cfg 0x02 7)).err ≠ ESP_OK →
      (getTime bus self time).1 = (bus self.calls (regRead self._cfg 0x02 7)).err ∧
      (getTime bus self time).2.1 = time) ∧
    ((bus self.calls (regRead self._cfg 0x02 7)).err = ESP_OK →
      (getTime bus self time).1 = ESP_OK ∧
      (getTime bus self time).2.1.tm_isdst = 0) := by
  by_cases hok : (bus self.calls (regRead self._cfg 0x02 7)).err = ESP_OK
  · rw [getTime_ok bus self time hok]
    refine ⟨read_reg_calls bus self 0x02 7, ?_, ?_, ?_⟩
    · simp [hok]
    · intro h
      exact absurd hok h
    · intro _
      exact ⟨rfl, rfl⟩
  · rw [getTime_err bus self time hok]
    refine ⟨read_reg_calls bus self 0x02 7, ?_, ?_, ?_⟩
    · simp [hok]
    · intro _
      exact ⟨rfl, rfl⟩
    · intro h
      exact absurd h hok

/-- Instances of C9: on a bus that fails every transaction `getTime` returns the failure
status -1 and the caller's value is untouched; on a bus that delivers `leapDayBlock` it
returns `ESP_OK` and the daylight-saving flag is 0. -/
theorem C9_getTime_error_propagation_witness :
    ((getTime deadBus fresh sevens).1 = -1 ∧ (getTime deadBus fresh sevens).2.1 = sevens) ∧
    ((getTime (replyBus leapDayBlock) fresh sevens).1 = ESP_OK ∧
      (getTime (replyBus leapDayBlock) fresh sevens).2.1.tm_isdst = 0) :=
  ⟨(C9_getTime_error_propagation deadBus fresh sevens).2.2.1 (by decide),
   (C9_getTime_error_propagation (replyBus leapDayBlock) fresh sevens).2.2.2 rfl⟩

/-- C10: for every calendar time, `setTime` makes exactly one call, a bus write of the 8
bytes 0x02, bcd(sec), bcd(min), bcd(hour), bcd(day), bcd(weekday), bcd(month + 1),
bcd(year - 2000) (`dec2bcd` of the value truncated to 8 bits); it performs no read and
its result is the status of that write, so it is `ESP_OK` exactly when the write
succeeded. -/
theorem C10_setTime_single_write (bus : Transport) (self : PCF8563) (time : tm) :
    (setTime bus self time).2.calls = self.calls ++
      [Call.i2c_master_write_to_device self._cfg.i2c_port self._cfg.dev_addr
        [0x02, dec2bcd (toU8 time.tm_sec), dec2bcd (toU8 time.tm_min),
         dec2bcd (toU8 time.tm_hour), dec2bcd (toU8 time.tm_mday),
         dec2bcd (toU8 time.tm_wday), dec2bcd (toU8 (time.tm_mon + 1)),
         dec2bcd (toU8 (time.tm_year - 2000))]] ∧
    (setTime bus self time).1 = (bus self.calls
      (Call.i2c_master_write_to_device self._cfg.i2c_port self._cfg.dev_addr
        [0x02, dec2bcd (toU8 time.tm_sec), dec2bcd (toU8 time.tm_min),
         dec2bcd (toU8 time.tm_hour), dec2bcd (toU8 time.tm_mday),
         dec2bcd (toU8 time.tm_wday), dec2bcd (toU8 (time.tm_mon + 1)),
         dec2bcd (toU8 (time.tm_year - 2000))])).err ∧
    (setTime bus self time).2._cfg = self._cfg := by
  refine ⟨setTime_calls bus self time, ?_, ?_⟩
  · simp [setTime, i2c_master_write_to_device, encodeTime, Buffer.toList, toU8_toInt]
  · simp [setTime, i2c_master_write_to_device]

/-! ## Interrupt flag and alarm disabling -/

set_option maxRecDepth 100000 in
theorem flag_byte_clear : ∀ r : uint8_t,
    (toU8 (int_and r.val 0xF3)).val = r.val &&& 0xF3 := by
  decide

set_option maxRecDepth 100000 in
theorem flag_bits_clear : ∀ r : uint8_t,
    (r.val &&& 0xF3).testBit 2 = false ∧ (r.val &&& 0xF3).testBit 3 = false ∧
    ∀ i : Fin 8, i ≠ 2 → i ≠ 3 → (r.val &&& 0xF3).testBit i.val = r.val.testBit i.val := by
  decide

theorem clearIRQ_calls (bus : Transport) (self : PCF8563) :
    (clearIRQ bus self).calls = self.calls ++
      [regRead self._cfg 0x01 1,
       regWrite self._cfg 0x01 (toU8 (int_and (controlByte bus self).val 0xF3))] := by
  simp only [clearIRQ, write_reg_calls, read_reg_calls, read_reg_cfg, List.append_assoc,
    List.cons_append, List.nil_append, controlByte]
  rfl

/-- C11: for every byte `v` that the read of control register 0x01 leaves in the scratch
buffer, `clearIRQ` makes exactly two calls: one 1-byte read of register 0x01, then one
write of `v & 0xF3` to register 0x01; bits 2 and 3 of the written byte are clear, every
other bit is that of `v`, and no other register is addressed. -/
theorem C11_clearIRQ_read_modify_write (bus : Transport) (self : PCF8563) :
    ∃ w : uint8_t,
      w.val = (controlByte bus self).val &&& 0xF3 ∧
      (w.val.testBit 2 = false ∧ w.val.testBit 3 = false ∧
        ∀ i : Fin 8, i ≠ 2 → i ≠ 3 →
          w.val.testBit i.val = (controlByte bus self).val.testBit i.val) ∧
      (clearIRQ bus self).calls = self.calls ++
        [regRead self._cfg 0x01 1, regWrite self._cfg 0x01 w] ∧
      (∀ c ∈ [regRead self._cfg 0x01 1, regWrite self._cfg 0x01 w],
        regAddress c = some 0x01) ∧
      controlByte bus self
        = (bus self.calls (regRead self._cfg 0x01 1)).data.getD 0 self._data_buffer.b0 := by
  refine ⟨_, flag_byte_clear (controlByte bus self), ?_, clearIRQ_calls bus self, ?_,
    controlByte_eq bus self⟩
  · rw [flag_byte_clear (controlByte bus self)]
    exact flag_bits_clear (controlByte bus self)
  · intro c hc
    simp only [List.mem_cons, List.mem_singleton, List.not_mem_nil, or_false] at hc
    rcases hc with rfl | rfl <;> rfl

/-- C12: for every scratch buffer content and every transport, `disableIRQ` makes exactly
three calls, all writes and no read, in this order: the 5 bytes 0x09, 0x80, 0x80, 0x80,
0x80, then 0x0E, 0x00, then 0x01, 0x00. -/
theorem C12_disableIRQ_three_writes (bus : Transport) (self : PCF8563) :
    (disableIRQ bus self).calls = self.calls ++
      [Call.i2c_master_write_to_device self._cfg.i2c_port self._cfg.dev_addr
        [0x09, 0x80, 0x80, 0x80, 0x80],
       Call.i2c_master_write_to_device self._cfg.i2c_port self._cfg.dev_addr [0x0E, 0x00],
       Call.i2c_master_write_to_device self._cfg.i2c_port self._cfg.dev_addr
        [0x01, 0x00]] := by
  simp [disableIRQ, _write_reg, i2c_master_write_to_device, Buffer.toList]

/-! ## Year field and masked bits of the time block -/

set_option maxRecDepth 100000 in
theorem bcd_roundtrip_iff : ∀ v : uint8_t, bcd2dec (dec2bcd v) = v ↔ v.val ≤ 159 := by
  decide

theorem getTime_decodes (bus : Transport) (self : PCF8563) (time : tm)
    (block : List uint8_t)
    (hok : (bus self.calls (regRead self._cfg 0x02 7)).err = ESP_OK)
    (hdata : (bus self.calls (regRead self._cfg 0x02 7)).data = block) :
    (getTime bus self time).2.1
      = decodeTime (self._data_buffer.store (block.take 7)) time := by
  rw [getTime_ok bus self time hok, ← hdata]
  rfl

theorem setTime_block (bus : Transport) (self : PCF8563) (t : tm) (block : List uint8_t)
    (hwritten : (setTime bus self t).2.calls = self.calls ++
      [Call.i2c_master_write_to_device self._cfg.i2c_port self._cfg.dev_addr
        (0x02 :: block)]) :
    block =
      [dec2bcd (toU8 t.tm_sec), dec2bcd (toU8 t.tm_min), dec2bcd (toU8 t.tm_hour),
       dec2bcd (toU8 t.tm_mday), dec2bcd (toU8 t.tm_wday), dec2bcd (toU8 (t.tm_mon + 1)),
       dec2bcd (toU8 (t.tm_year - 2000))] := by
  rw [setTime_calls] at hwritten
  have h := List.append_cancel_left hwritten
  simp only [List.cons.injEq, Call.i2c_master_write_to_device.injEq, true_and,
    and_true] at h
  exact h.symm

/-- C13, as stated, fails at year 2100: `setTime` encodes the year byte 0xA0, and decoding
the block it wrote returns the year 2100 again. -/
theorem C13_year_2100_survives :
    ¬ (2000 ≤ year2100.tm_year ∧ year2100.tm_year ≤ 2099) ∧
    (setTime (replyBus []) fresh year2100).2.calls =
      [Call.i2c_master_write_to_device fresh._cfg.i2c_port fresh._cfg.dev_addr
        (0x02 :: year2100Block)] ∧
    (getTime (replyBus year2100Block) fresh sevens).1 = ESP_OK ∧
    (getTime (replyBus year2100Block) fresh sevens).2.1.tm_year = year2100.tm_year := by
  decide

/-- C13 (amended): if `setTime t` put the bytes `0x02 :: block` on the bus and a later read
of register 0x02 succeeds and delivers `block`, the year that `getTime` decodes is the year
of `t` exactly when that year lies in [2000, 2159]; so for every year outside [2000, 2159]
the decoded year differs from the original one. -/
theorem C13_year_roundtrip_iff (bus bus2 : Transport) (self self2 : PCF8563)
    (t time : tm) (block : List uint8_t)
    (hwritten : (setTime bus self t).2.calls = self.calls ++
      [Call.i2c_master_write_to_device self._cfg.i2c_port self._cfg.dev_addr
        (0x02 :: block)])
    (hok : (bus2 self2.calls (regRead self2._cfg 0x02 7)).err = ESP_OK)
    (hdata : (bus2 self2.calls (regRead self2._cfg 0x02 7)).data = block) :
    (getTime bus2 self2 time).2.1.tm_year = t.tm_year
      ↔ 2000 ≤ t.tm_year ∧ t.tm_year ≤ 2159 := by
  have hblock := setTime_block bus self t block hwritten
  have hyear : (getTime bus2 self2 time).2.1.tm_year
      = ((bcd2dec (dec2bcd (toU8 (t.tm_year - 2000)))).val : Int) + 2000 := by
    rw [getTime_decodes bus2 self2 time block hok hdata, hblock]
    rfl
  rw [hyear]
  have hlt := (bcd2dec (dec2bcd (toU8 (t.tm_year - 2000)))).isLt
  constructor
  · intro h
    have hv : ((toU8 (t.tm_year - 2000)).val : Int) = t.tm_year - 2000 :=
      toU8_val_of_range _ (by omega) (by omega)
    have hfix : bcd2dec (dec2bcd (toU8 (t.tm_year - 2000))) = toU8 (t.tm_year - 2000) := by
      apply Fin.ext
      omega
    have h159 := (bcd_roundtrip_iff _).mp hfix
    omega
  · rintro ⟨hlo, hhi⟩
    have hv : ((toU8 (t.tm_year - 2000)).val : Int) = t.tm_year - 2000 :=
      toU8_val_of_range _ (by omega) (by omega)
    rw [(bcd_roundtrip_iff _).mpr (by omega), hv]
    omega

/-- Instance of the amended C13 at year 1999: the year byte written is 0x95 and the year
decoded from the block is 2095, not 1999. -/
theorem C13_year_roundtrip_iff_witness :
    (setTime (replyBus []) fresh year1999).2.calls = fresh.calls ++
      [Call.i2c_master_write_to_device fresh._cfg.i2c_port fresh._cfg.dev_addr
        (0x02 :: year1999Block)] ∧
    (replyBus year1999Block fresh.calls (regRead fresh._cfg 0x02 7)).err = ESP_OK ∧
    (replyBus year1999Block fresh.calls (regRead fresh._cfg 0x02 7)).data = year1999Block ∧
    (getTime (replyBus year1999Block) fresh sevens).2.1.tm_year = 2095 ∧
    ((getTime (replyBus year1999Block) fresh sevens).2.1.tm_year = year1999.tm_year
      ↔ 2000 ≤ year1999.tm_year ∧ year1999.tm_year ≤ 2159) :=
  ⟨by decide, rfl, rfl, by decide,
    C13_year_roundtrip_iff (replyBus []) (replyBus year1999Block) fresh fresh
      year1999 sevens year1999Block (by decide) rfl rfl⟩

set_option maxRecDepth 100000 in
theorem mask7F_byte : ∀ a : uint8_t, (toU8 (int_and a.val 0x7F)).val = a.val &&& 0x7F := by
  decide

set_option maxRecDepth 100000 in
theorem mask3F_byte : ∀ a : uint8_t, (toU8 (int_and a.val 0x3F)).val = a.val &&& 0x3F := by
  decide

set_option maxRecDepth 100000 in
theorem mask07_byte : ∀ a : uint8_t, (toU8 (int_and a.val 0x07)).val = a.val &&& 0x07 := by
  decide

set_option maxRecDepth 100000 in
theorem mask1F_byte : ∀ a : uint8_t, (toU8 (int_and a.val 0x1F)).val = a.val &&& 0x1F := by
  decide

set_option maxRecDepth 100000 in
theorem maskFF_byte : ∀ a : uint8_t, a.val &&& 0xFF = a.val := by
  decide

/-- C14: let two 7-byte time-block images agree on all bits inside the field masks
(seconds and minutes 0x7F, hours and day 0x3F, weekday 0x07, month 0x1F, year 0xFF).  If
two reads of register 0x02 succeed and deliver them, `getTime` returns `ESP_OK` both times
and the same calendar time; the bits outside the masks, among them the voltage-low flag
(bit 7 of the seconds register), have no influence on any field. -/
theorem C14_getTime_masked_bits (bus1 bus2 : Transport) (self1 self2 : PCF8563) (time : tm)
    (a0 a1 a2 a3 a4 a5 a6 c0 c1 c2 c3 c4 c5 c6 : uint8_t)
    (hok1 : (bus1 self1.calls (regRead self1._cfg 0x02 7)).err = ESP_OK)
    (hdata1 : (bus1 self1.calls (regRead self1._cfg 0x02 7)).data
      = [a0, a1, a2, a3, a4, a5, a6])
    (hok2 : (bus2 self2.calls (regRead self2._cfg 0x02 7)).err = ESP_OK)
    (hdata2 : (bus2 self2.calls (regRead self2._cfg 0x02 7)).data
      = [c0, c1, c2, c3, c4, c5, c6])
    (h0 : a0.val &&& 0x7F = c0.val &&& 0x7F)
    (h1 : a1.val &&& 0x7F = c1.val &&& 0x7F)
    (h2 : a2.val &&& 0x3F = c2.val &&& 0x3F)
    (h3 : a3.val &&& 0x3F = c3.val &&& 0x3F)
    (h4 : a4.val &&& 0x07 = c4.val &&& 0x07)
    (h5 : a5.val &&& 0x1F = c5.val &&& 0x1F)
    (h6 : a6.val &&& 0xFF = c6.val &&& 0xFF) :
    (getTime bus1 self1 time).1 = ESP_OK ∧ (getTime bus2 self2 time).1 = ESP_OK ∧
    (getTime bus1 self1 time).2.1 = (getTime bus2 self2 time).2.1 := by
  have e0 : toU8 (int_and a0.val 0x7F) = toU8 (int_and c0.val 0x7F) :=
    Fin.ext (by rw [mask7F_byte, mask7F_byte, h0])
  have e1 : toU8 (int_and a1.val 0x7F) = toU8 (int_and c1.val 0x7F) :=
    Fin.ext (by rw [mask7F_byte, mask7F_byte, h1])
  have e2 : toU8 (int_and a2.val 0x3F) = toU8 (int_and c2.val 0x3F) :=
    Fin.ext (by rw [mask3F_byte, mask3F_byte, h2])
  have e3 : toU8 (int_and a3.val 0x3F) = toU8 (int_and c3.val 0x3F) :=
    Fin.ext (by rw [mask3F_byte, mask3F_byte, h3])
  have e4 : toU8 (int_and a4.val 0x07) = toU8 (int_and c4.val 0x07) :=
    Fin.ext (by rw [mask07_byte, mask07_byte, h4])
  have e5 : toU8 (int_and a5.val 0x1F) = toU8 (int_and c5.val 0x1F) :=
    Fin.ext (by rw [mask1F_byte, mask1F_byte, h5])
  have e6 : a6 = c6 := Fin.ext (by rw [← maskFF_byte a6, ← maskFF_byte c6, h6])
  refine ⟨by rw [getTime_ok bus1 self1 time hok1], by rw [getTime_ok bus2 self2 time hok2],
    ?_⟩
  rw [getTime_decodes bus1 self1 time _ hok1 hdata1,
    getTime_decodes bus2 self2 time _ hok2 hdata2]
  simp only [decodeTime, Buffer.store, List.take, List.getD_cons_zero, List.getD_cons_succ,
    e0, e1, e2, e3, e4, e5, e6]

/-- Instance of C14: the image of `leapDay` and the same image with the voltage-low flag
and the unused upper bits set decode to the same calendar time. -/
theorem C14_getTime_masked_bits_witness :
    (getTime (replyBus leapDayBlock) fresh sevens).2.1
      = (getTime (replyBus leapDayBlockFlags) fresh sevens).2.1 ∧
    (getTime (replyBus leapDayBlockFlags) fresh sevens).2.1 = { leapDay with tm_yday := 7 } :=
  ⟨(C14_getTime_masked_bits (replyBus leapDayBlock) (replyBus leapDayBlockFlags) fresh fresh
      sevens 0x58 0x59 0x23 0x29 0x04 0x02 0x24 0xD8 0xD9 0xE3 0xE9 0xFC 0xE2 0x24
      rfl rfl rfl rfl (by decide) (by decide) (by decide) (by decide) (by decide)
      (by decide) (by decide)).2.2,
   by decide⟩

/-! ## BCD validity -/

set_option maxRecDepth 100000 in
theorem bcd_reencode_byte : ∀ b : uint8_t, b.val / 16 ≤ 9 ∧ b.val % 16 ≤ 9 →
    dec2bcd (bcd2dec b) = b := by
  decide

set_option maxRecDepth 100000 in
theorem bcd_encode_valid : ∀ v : uint8_t, v.val ≤ 99 →
    (dec2bcd v).val / 16 ≤ 9 ∧ (dec2bcd v).val % 16 ≤ 9 := by
  decide

/-- C20: for every byte `b` that is valid BCD (both nibbles at most 9),
`dec2bcd(bcd2dec(b))` is `b`, and for every `value` in 0..99, `dec2bcd(value)` is valid
BCD; so a BCD-valid register byte that is decoded and written back is re-encoded to
itself. -/
theorem C20_bcd_reencode (b : uint8_t) (hb : ValidBCD b)
    (value : Int) (h0 : 0 ≤ value) (h99 : value ≤ 99) :
    dec2bcd (bcd2dec b) = b ∧ ValidBCD (dec2bcd (toU8 value)) := by
  refine ⟨bcd_reencode_byte b hb, bcd_encode_valid (toU8 value) ?_⟩
  have hv := toU8_val_of_range value h0 (by omega)
  omega

/-- Instance of C20: the byte 0x59 is valid BCD and is re-encoded to itself, and the value
59 is encoded to a valid BCD byte. -/
theorem C20_bcd_reencode_witness :
    ValidBCD 0x59 ∧ (0 : Int) ≤ 59 ∧ (59 : Int) ≤ 99 ∧
    dec2bcd (bcd2dec 0x59) = 0x59 ∧ ValidBCD (dec2bcd (toU8 59)) :=
  have hv : ValidBCD 0x59 := by
    unfold ValidBCD
    decide
  ⟨hv, by decide, by decide, C20_bcd_reencode 0x59 hv 59 (by decide) (by decide)⟩

/-! ## Bring-up sequence -/

theorem gpioInit_cfg (self : PCF8563) : (gpioInit self)._cfg = self._cfg := by
  unfold gpioInit
  split <;> rfl

theorem gpioInit_calls (self : PCF8563) :
    ∃ g : List Call, (∀ c ∈ g, isBusCall c = false) ∧
      (gpioInit self).calls = self.calls ++ g := by
  unfold gpioInit
  split
  · refine ⟨[Call.gpio_reset_pin self._cfg.pin_int,
      Call.gpio_set_direction self._cfg.pin_int gpio_mode_t.GPIO_MODE_INPUT], ?_, rfl⟩
    intro c hc
    simp only [List.mem_cons, List.mem_singleton, List.not_mem_nil, or_false] at hc
    rcases hc with rfl | rfl <;> rfl
  · exact ⟨[], by simp, by simp⟩

/-- C15: for every pin configuration and every transport (every outcome of each bus
transaction), `init` returns true and the bus transactions it issues are exactly three
register writes, in order: 0x00 to register 0x00, 0x00 to register 0x00 again, 0x03 to
register 0x0E; the only calls before them are the GPIO calls of `gpioInit`.  The same holds
of `init(sda, scl, intr)`. -/
theorem C15_init_three_writes (bus : Transport) (self : PCF8563) (sda scl intr : Int) :
    ((init bus self).1 = true ∧
      ∃ g : List Call, (∀ c ∈ g, isBusCall c = false) ∧
        (init bus self).2.calls = self.calls ++ g ++
          [regWrite self._cfg 0x00 0x00, regWrite self._cfg 0x00 0x00,
           regWrite self._cfg 0x0E 0x03]) ∧
    ((init_pins bus self sda scl intr).1 = true ∧
      ∃ g : List Call, (∀ c ∈ g, isBusCall c = false) ∧
        (init_pins bus self sda scl intr).2.calls = self.calls ++ g ++
          [regWrite self._cfg 0x00 0x00, regWrite self._cfg 0x00 0x00,
           regWrite self._cfg 0x0E 0x03]) := by
  have key : ∀ s : PCF8563, (init bus s).1 = true ∧
      ∃ g : List Call, (∀ c ∈ g, isBusCall c = false) ∧
        (init bus s).2.calls = s.calls ++ g ++
          [regWrite s._cfg 0x00 0x00, regWrite s._cfg 0x00 0x00,
           regWrite s._cfg 0x0E 0x03] := by
    intro s
    obtain ⟨g, hg, hcalls⟩ := gpioInit_calls s
    refine ⟨rfl, g, hg, ?_⟩
    simp only [init, write_reg_calls, write_reg_cfg, gpioInit_cfg, hcalls,
      List.append_assoc, List.cons_append, List.nil_append]
  exact ⟨key self, key (setPin self sda scl intr)⟩

/-! ## Countdown timer: independence of the transport, fixed point, error, monotonicity -/

theorem setAlarmIRQ_fst_indep (bus1 bus2 : Transport) (self1 self2 : PCF8563) (a : Int) :
    (setAlarmIRQ bus1 self1 a).1 = (setAlarmIRQ bus2 self2 a).1 := by
  by_cases h : a < 0
  · rw [setAlarmIRQ_fst_neg bus1 self1 a h, setAlarmIRQ_fst_neg bus2 self2 a h]
  · simp only [setAlarmIRQ, h, if_false]

theorem setAlarmIRQ_calls_arm_uniform (self : PCF8563) (a : Int) (h0 : 0 ≤ a) :
    ∃ ty cnt : uint8_t, ∀ bus : Transport, (setAlarmIRQ bus self a).2.calls = self.calls ++
      [regRead self._cfg 0x01 1,
       regWrite self._cfg 0x0E ty,
       regWrite self._cfg 0x0F cnt,
       regWrite self._cfg 0x01 (toU8 (int_and (int_or
         (toU8 (int_and (controlByte bus self).val (int_not 0x0C))).val 0x01)
         (int_not 0x80)))] := by
  have hn : ¬ a < 0 := by omega
  refine ⟨if a < 270 then 0x82 else 0x83,
    toU8 (if a < 270 then (if a > 255 then 255 else a)
      else (if toInt ((toSizeT (toInt (a + 30)) / 60 : Nat) : Int) > 255 then 255
        else toInt ((toSizeT (toInt (a + 30)) / 60 : Nat) : Int))), ?_⟩
  intro bus
  simp only [setAlarmIRQ, hn, if_false, write_reg_calls, write_reg_cfg,
    read_reg_calls, read_reg_cfg, List.append_assoc, List.cons_append, List.nil_append,
    controlByte]
  rfl

/-- C16: for every `afterSeconds`, every controller state and every two transports,
`setAlarmIRQ` returns the same value, makes calls to the same sequence of register
addresses, and writes the same bytes to registers 0x0E and 0x0F; no outcome of a
transaction aborts or alters the sequence or the reported delay. -/
theorem C16_setAlarmIRQ_transport_independent (bus1 bus2 : Transport) (self : PCF8563)
    (afterSeconds : Int) :
    (setAlarmIRQ bus1 self afterSeconds).1 = (setAlarmIRQ bus2 self afterSeconds).1 ∧
    (setAlarmIRQ bus1 self afterSeconds).2.calls.map regAddress
      = (setAlarmIRQ bus2 self afterSeconds).2.calls.map regAddress ∧
    (setAlarmIRQ bus1 self afterSeconds).2.calls.filter isTimerWrite
      = (setAlarmIRQ bus2 self afterSeconds).2.calls.filter isTimerWrite := by
  refine ⟨setAlarmIRQ_fst_indep bus1 bus2 self self afterSeconds, ?_⟩
  by_cases h : afterSeconds < 0
  · rw [setAlarmIRQ_calls_disable bus1 self afterSeconds h,
      setAlarmIRQ_calls_disable bus2 self afterSeconds h]
    simp [regAddress, regRead, regWrite, isTimerWrite, List.filter_cons]
  · obtain ⟨ty, cnt, hcalls⟩ := setAlarmIRQ_calls_arm_uniform self afterSeconds (by omega)
    rw [hcalls bus1, hcalls bus2]
    simp [regAddress, regRead, regWrite, isTimerWrite, List.filter_cons]

/-- C17: for every `afterSeconds <= 2^31 - 31` (negative values included), calling
`setAlarmIRQ` on the value that `setAlarmIRQ(afterSeconds)` returned, in any controller
state and on any transport, returns that same value; and when `afterSeconds >= 0` the two
calls write the same type byte to register 0x0E and the same count to register 0x0F. -/
theorem C17_setAlarmIRQ_fixed_point (bus bus2 : Transport) (self self2 : PCF8563)
    (afterSeconds : Int) (hhi : afterSeconds ≤ 2 ^ 31 - 31) :
    (setAlarmIRQ bus2 self2 (setAlarmIRQ bus self afterSeconds).1).1
      = (setAlarmIRQ bus self afterSeconds).1 ∧
    (0 ≤ afterSeconds → ∃ ty cnt ctl1 ctl2 : uint8_t,
      (setAlarmIRQ bus self afterSeconds).2.calls = self.calls ++
        [regRead self._cfg 0x01 1, regWrite self._cfg 0x0E ty,
         regWrite self._cfg 0x0F cnt, regWrite self._cfg 0x01 ctl1] ∧
      (setAlarmIRQ bus2 self2 (setAlarmIRQ bus self afterSeconds).1).2.calls = self2.calls ++
        [regRead self2._cfg 0x01 1, regWrite self2._cfg 0x0E ty,
         regWrite self2._cfg 0x0F cnt, regWrite self2._cfg 0x01 ctl2]) := by
  have hmax : afterSeconds ≤ 2147483617 := by
    have h : (2 : Int) ^ 31 - 31 = 2147483617 := by norm_num
    omega
  by_cases hneg : afterSeconds < 0
  · rw [setAlarmIRQ_fst_neg bus self afterSeconds hneg]
    exact ⟨setAlarmIRQ_fst_neg bus2 self2 (-1) (by decide), fun h => absurd h (by omega)⟩
  · by_cases hs : afterSeconds < 270
    · rw [setAlarmIRQ_fst_sec bus self afterSeconds (by omega) hs]
      have hr0 : 0 ≤ min afterSeconds 255 := by omega
      have hr : min afterSeconds 255 < 270 := by omega
      have hmm : min (min afterSeconds 255) 255 = min afterSeconds 255 := by omega
      have c1 := setAlarmIRQ_calls_sec bus self afterSeconds (by omega) hs
      have c2 := setAlarmIRQ_calls_sec bus2 self2 _ hr0 hr
      rw [hmm] at c2
      refine ⟨?_, fun _ => ⟨_, _, _, _, c1, c2⟩⟩
      rw [setAlarmIRQ_fst_sec bus2 self2 _ hr0 hr, hmm]
    · rw [setAlarmIRQ_fst_min bus self afterSeconds (by omega) hmax]
      have hr0 : 270 ≤ 60 * min ((afterSeconds + 30) / 60) 255 := by omega
      have hr : 60 * min ((afterSeconds + 30) / 60) 255 ≤ 2147483617 := by omega
      have hmm : min ((60 * min ((afterSeconds + 30) / 60) 255 + 30) / 60) 255
          = min ((afterSeconds + 30) / 60) 255 := by omega
      have c1 := setAlarmIRQ_calls_min bus self afterSeconds (by omega) hmax
      have c2 := setAlarmIRQ_calls_min bus2 self2 _ hr0 hr
      rw [hmm] at c2
      refine ⟨?_, fun _ => ⟨_, _, _, _, c1, c2⟩⟩
      rw [setAlarmIRQ_fst_min bus2 self2 _ hr0 hr, hmm]

/-- Instances of C17: requesting 1000 seconds returns 1020, and requesting 1020 returns
1020; requesting 260 returns 255, and requesting 255 returns 255. -/
theorem C17_setAlarmIRQ_fixed_point_witness :
    ((1000 : Int) ≤ 2 ^ 31 - 31 ∧ (setAlarmIRQ deadBus fresh 1000).1 = 1020 ∧
      (setAlarmIRQ (replyBus [0xFF]) fresh (setAlarmIRQ deadBus fresh 1000).1).1
        = (setAlarmIRQ deadBus fresh 1000).1) ∧
    ((260 : Int) ≤ 2 ^ 31 - 31 ∧ (setAlarmIRQ deadBus fresh 260).1 = 255 ∧
      (setAlarmIRQ (replyBus [0xFF]) fresh (setAlarmIRQ deadBus fresh 260).1).1
        = (setAlarmIRQ deadBus fresh 260).1) :=
  ⟨⟨by decide, by decide,
      (C17_setAlarmIRQ_fixed_point deadBus (replyBus [0xFF]) fresh fresh 1000
        (by decide)).1⟩,
   ⟨by decide, by decide,
      (C17_setAlarmIRQ_fixed_point deadBus (replyBus [0xFF]) fresh fresh 260
        (by decide)).1⟩⟩

/-- C18: for every `afterSeconds` with 0 <= afterSeconds <= 15300, the delay returned by
`setAlarmIRQ` differs from the request by at most 30 seconds, and by at most 14 seconds
when `afterSeconds < 270`. -/
theorem C18_setAlarmIRQ_error_bound (bus : Transport) (self : PCF8563) (afterSeconds : Int)
    (h0 : 0 ≤ afterSeconds) (hhi : afterSeconds ≤ 15300) :
    ((setAlarmIRQ bus self afterSeconds).1 - afterSeconds).natAbs ≤ 30 ∧
    (afterSeconds < 270 →
      ((setAlarmIRQ bus self afterSeconds).1 - afterSeconds).natAbs ≤ 14) := by
  by_cases hs : afterSeconds < 270
  · rw [setAlarmIRQ_fst_sec bus self afterSeconds h0 hs]
    exact ⟨by omega, fun _ => by omega⟩
  · rw [setAlarmIRQ_fst_min bus self afterSeconds (by omega) (by omega)]
    exact ⟨by omega, fun h => absurd h hs⟩

/-- Instances of C18 where the bounds are reached: at 270 the result 300 is 30 seconds off,
at 269 the result 255 is 14 seconds off. -/
theorem C18_setAlarmIRQ_error_bound_witness :
    ((0 : Int) ≤ 270 ∧ (270 : Int) ≤ 15300 ∧ (setAlarmIRQ deadBus fresh 270).1 = 300 ∧
      ((setAlarmIRQ deadBus fresh 270).1 - 270).natAbs ≤ 30) ∧
    ((0 : Int) ≤ 269 ∧ (269 : Int) ≤ 15300 ∧ (setAlarmIRQ deadBus fresh 269).1 = 255 ∧
      ((setAlarmIRQ deadBus fresh 269).1 - 269).natAbs ≤ 14) :=
  ⟨⟨by decide, by decide, by decide,
      (C18_setAlarmIRQ_error_bound deadBus fresh 270 (by decide) (by decide)).1⟩,
   ⟨by decide, by decide, by decide,
      (C18_setAlarmIRQ_error_bound deadBus fresh 269 (by decide) (by decide)).2
        (by decide)⟩⟩

/-- C19: the applied delay is monotone in the requested delay: for every `a`, `b` with
0 <= a <= b <= 2^31 - 31, in any controller states and on any transports,
`setAlarmIRQ(a) <= setAlarmIRQ(b)`, also across the switch of resolution at 269/270. -/
theorem C19_setAlarmIRQ_monotone (bus1 bus2 : Transport) (self1 self2 : PCF8563)
    (a b : Int) (h0 : 0 ≤ a) (hab : a ≤ b) (hb : b ≤ 2 ^ 31 - 31) :
    (setAlarmIRQ bus1 self1 a).1 ≤ (setAlarmIRQ bus2 self2 b).1 := by
  have hmax : b ≤ 2147483617 := by
    have h : (2 : Int) ^ 31 - 31 = 2147483617 := by norm_num
    omega
  by_cases ha : a < 270
  · rw [setAlarmIRQ_fst_sec bus1 self1 a h0 ha]
    by_cases hb2 : b < 270
    · rw [setAlarmIRQ_fst_sec bus2 self2 b (by omega) hb2]
      omega
    · rw [setAlarmIRQ_fst_min bus2 self2 b (by omega) hmax]
      omega
  · rw [setAlarmIRQ_fst_min bus1 self1 a (by omega) (by omega),
      setAlarmIRQ_fst_min bus2 self2 b (by omega) hmax]
    omega

/-- Instance of C19 across the switch of resolution: `setAlarmIRQ(269)` is 255 and
`setAlarmIRQ(270)` is 300. -/
theorem C19_setAlarmIRQ_monotone_witness :
    (0 : Int) ≤ 269 ∧ (269 : Int) ≤ 270 ∧ (270 : Int) ≤ 2 ^ 31 - 31 ∧
    (setAlarmIRQ deadBus fresh 269).1 = 255 ∧
    (setAlarmIRQ (replyBus [0xFF]) fresh 270).1 = 300 ∧
    (setAlarmIRQ deadBus fresh 269).1 ≤ (setAlarmIRQ (replyBus [0xFF]) fresh 270).1 :=
  ⟨by decide, by decide, by decide, by decide, by decide,
    C19_setAlarmIRQ_monotone deadBus (replyBus [0xFF]) fresh fresh 269 270
      (by decide) (by decide) (by decide)⟩

end PCF8563
